import Mathlib

/-!
Verification of the rich-text editor logic of `pinus-study-frontend`
(`src/unnamed/part_000`, a Slate-based `TextEditor` component).

The component's own logic — `HOTKEYS`, `LIST_TYPES`, `TEXT_ALIGN_TYPES`,
`formatDirectory`, `toggleBlock`, `toggleMark`, `isBlockActive`,
`isMarkActive`, and the `Element` / `Leaf` renderers — is embedded
directly from the source.  The underlying editor engine (Slate) is an
external collaborator (spec §6); its primitives (`Editor.marks`,
`Editor.addMark`, `Editor.removeMark`, `Transforms.unwrapNodes`,
`Transforms.setNodes`, `Transforms.wrapNodes`, `Editor.nodes` over an
unhung range) are modelled over an explicit editor state:

* the selection's mark record is an optional boolean record
  (`Option (String → Bool)`); `none` models an absent selection, and
  the mark primitives are no-ops without a selection;
* the block-level selection is modelled as the list of leaf block
  elements the selection covers, together with the stack of enclosing
  list-container types (innermost first); `Editor.nodes` over the
  unhung range yields those containers (as elements without an `align`
  attribute) followed by the covered blocks, and the `Transforms`
  primitives rewrite this state (no-ops without a selection).

Mutation in the original (the renderers, the transforms) becomes
explicit state passing: a function returns the updated value.
-/

namespace RichText

/-- A text run (leaf): a string payload plus the four independent
boolean mark flags `bold`, `italic`, `underline`, `code`. -/
structure LeafRun where
  text : String
  bold : Bool
  italic : Bool
  underline : Bool
  code : Bool
deriving DecidableEq, Repr

/-- A block element node: a `type` and an optional `align` attribute,
holding child text runs.  (Field `type_` embeds the source's `type`.) -/
structure ElementNode where
  type_ : String
  align : Option String
  children : List LeafRun
deriving DecidableEq, Repr

/-- The block-level selection state: the leaf block elements covered by
the (unhung) selection range, and the types of the enclosing list
containers around the selection, innermost first. -/
structure Selection where
  selected : List ElementNode
  wrappers : List String
deriving DecidableEq, Repr

/-- The editor state: an optional block-level selection and the
selection's optional mark record (`Editor.marks`); `none` models the
absence of a selection. -/
structure Editor where
  selection : Option Selection
  marks : Option (String → Bool)

/-- Source `HOTKEYS`: the fixed keyboard-shortcut table mapping key
combinations to mark names. -/
def HOTKEYS : List (String × String) :=
  [("mod+b", "bold"), ("mod+i", "italic"), ("mod+u", "underline"), ("mod+`", "code")]

/-- Source `LIST_TYPES`. -/
def LIST_TYPES : List String := ["numbered-list", "bulleted-list"]

/-- Source `TEXT_ALIGN_TYPES`. -/
def TEXT_ALIGN_TYPES : List String := ["left", "center", "right", "justify"]

/-- Source `formatDirectory`: the registry record mapping alignment
keywords to canonical alignment values; an unknown key yields
`undefined` (`none`). -/
def formatDirectory (key : String) : Option String :=
  if key = "start" then some "start"
  else if key = "end" then some "end"
  else if key = "left" then some "left"
  else if key = "right" then some "right"
  else if key = "center" then some "center"
  else if key = "justify" then some "justify"
  else none

/-- Model of Slate's `Editor.addMark editor format true` (spec §6
external primitive): sets `format` to `true` in the selection's mark
record; without a selection it is a no-op. -/
def addMark (e : Editor) (format : String) : Editor :=
  match e.marks with
  | some m => { e with marks := some (fun x => if x = format then true else m x) }
  | none => e

/-- Model of Slate's `Editor.removeMark editor format` (spec §6
external primitive): removes `format` from the selection's mark record;
without a selection it is a no-op. -/
def removeMark (e : Editor) (format : String) : Editor :=
  match e.marks with
  | some m => { e with marks := some (fun x => if x = format then false else m x) }
  | none => e

/-- Source `isMarkActive`: true iff the selection's mark record has
`format` set to `true`; no selection (no marks) gives `false`. -/
def isMarkActive (e : Editor) (format : String) : Bool :=
  match e.marks with
  | some marks => marks format
  | none => false

/-- Source `toggleMark`: remove the mark if active, else add it. -/
def toggleMark (e : Editor) (format : String) : Editor :=
  let isActive := isMarkActive e format
  if isActive then removeMark e format else addMark e format

/-- Model of the `onKeyDown` handler of `TextEditor`: for each entry of
`HOTKEYS` whose key combination matches the pressed combination
(`isHotkey`), toggle the corresponding mark. -/
def onKeyDown (e : Editor) (pressed : String) : Editor :=
  HOTKEYS.foldl (fun ed hk => if pressed = hk.1 then toggleMark ed hk.2 else ed) e

/-- The element nodes yielded by Slate's `Editor.nodes` over the unhung
selection range, filtered by `!Editor.isEditor n && SlateElement.isElement n`:
the enclosing list containers (elements with no `align` attribute)
followed by the covered leaf blocks. -/
def nodesInRange (sel : Selection) : List ElementNode :=
  sel.wrappers.map (fun t => ⟨t, none, []⟩) ++ sel.selected

/-- Embedding of the source's dynamic attribute access
`n[blockType as keyof typeof n]` for the two attributes used
(`"type"` and `"align"`); any other key is `undefined`. -/
def nodeAttr (n : ElementNode) (blockType : String) : Option String :=
  if blockType = "type" then some n.type_
  else if blockType = "align" then n.align
  else none

/-- Source `isBlockActive`: `false` without a selection; otherwise true
iff some element node in the unhung selection range has its `blockType`
attribute equal to `format`. -/
def isBlockActive (e : Editor) (format : String) (blockType : String := "type") : Bool :=
  match e.selection with
  | none => false
  | some sel => (nodesInRange sel).any (fun n => nodeAttr n blockType = some format)

/-- Model of the `Transforms.unwrapNodes` call in `toggleBlock` (spec §6
external primitive): removes every enclosing container matching
`n.type ∈ LIST_TYPES && format ∉ TEXT_ALIGN_TYPES`; a no-op without a
selection. -/
def unwrapListNodes (e : Editor) (format : String) : Editor :=
  match e.selection with
  | none => e
  | some sel =>
      { e with selection := some { sel with
          wrappers := sel.wrappers.filter
            (fun t => !(LIST_TYPES.contains t && !TEXT_ALIGN_TYPES.contains format)) } }

/-- The partial element record `newProperties` built by `toggleBlock`:
either an `align` update or a `type` update. -/
inductive NewProps where
  | setAlign (v : Option String)
  | setType (v : String)
deriving DecidableEq, Repr

/-- Application of a partial element record to an element node. -/
def applyProps (p : NewProps) (n : ElementNode) : ElementNode :=
  match p with
  | .setAlign v => { n with align := v }
  | .setType v => { n with type_ := v }

/-- Model of `Transforms.setNodes` (spec §6 external primitive): applies
the partial record to every leaf block covered by the selection; a
no-op without a selection. -/
def setNodes (e : Editor) (p : NewProps) : Editor :=
  match e.selection with
  | none => e
  | some sel =>
      { e with selection := some { sel with selected := sel.selected.map (applyProps p) } }

/-- Model of `Transforms.wrapNodes` (spec §6 external primitive): wraps
the selection in one new container block of the given type; a no-op
without a selection. -/
def wrapNodes (e : Editor) (t : String) : Editor :=
  match e.selection with
  | none => e
  | some sel =>
      { e with selection := some { sel with wrappers := t :: sel.wrappers } }

/-- Source `toggleBlock`: computes `isActive` (attribute `"align"` for
alignment keywords, else `"type"`), unwraps enclosing list containers,
applies the new `align` or `type` properties, and wraps in a new list
container when turning a list format on. -/
def toggleBlock (e : Editor) (format : String) : Editor :=
  let isActive := isBlockActive e format
    (if TEXT_ALIGN_TYPES.contains format then "align" else "type")
  let isList := LIST_TYPES.contains format
  let e1 := unwrapListNodes e format
  let newProperties : NewProps :=
    if TEXT_ALIGN_TYPES.contains format then
      .setAlign (if isActive then some "left" else formatDirectory format)
    else
      .setType (if isActive then "paragraph" else if isList then "list-item" else format)
  let e2 := setNodes e1 newProperties
  if !isActive && isList then wrapNodes e2 format else e2

/-- The container tag produced by the `Element` renderer. -/
inductive Tag where
  | blockquote
  | ul
  | h1
  | h2
  | li
  | ol
  | p
deriving DecidableEq, Repr

/-- The presentational output of the `Element` renderer: the container
tag and the `textAlign` style attribute. -/
structure RenderedBlock where
  tag : Tag
  textAlign : String
deriving DecidableEq, Repr

/-- Source `Element` renderer.  The original mutates its input:
`if (element.align === undefined) element.align = "left"`; the mutation
becomes explicit, so the renderer returns both the presentational
output and the (possibly updated) element node. -/
def Element (element : ElementNode) : RenderedBlock × ElementNode :=
  let element :=
    if element.align = none then { element with align := some "left" } else element
  let style := element.align.getD "left"
  let rendered : RenderedBlock :=
    if element.type_ = "block-quote" then ⟨.blockquote, style⟩
    else if element.type_ = "bulleted-list" then ⟨.ul, style⟩
    else if element.type_ = "heading-one" then ⟨.h1, style⟩
    else if element.type_ = "heading-two" then ⟨.h2, style⟩
    else if element.type_ = "list-item" then ⟨.li, style⟩
    else if element.type_ = "numbered-list" then ⟨.ol, style⟩
    else ⟨.p, style⟩
  (rendered, element)

/-- The markup produced by the `Leaf` renderer: the raw text wrapped in
nested emphasis wrappers inside the outer span. -/
inductive LeafRendered where
  | text (s : String)
  | strong (c : LeafRendered)
  | codeBackground (c : LeafRendered)
  | codeElem (c : LeafRendered)
  | em (c : LeafRendered)
  | u (c : LeafRendered)
  | span (c : LeafRendered)
deriving DecidableEq, Repr

/-- Source `Leaf` renderer: successively wraps the children in a bold
wrapper, a code element inside its background wrapper, an italic
wrapper and an underline wrapper, as the corresponding flags are set,
and puts the result in the outer span. -/
def Leaf (leaf : LeafRun) : LeafRendered :=
  let children := LeafRendered.text leaf.text
  let children := if leaf.bold then LeafRendered.strong children else children
  let children :=
    if leaf.code then LeafRendered.codeBackground (LeafRendered.codeElem children)
    else children
  let children := if leaf.italic then LeafRendered.em children else children
  let children := if leaf.underline then LeafRendered.u children else children
  LeafRendered.span children

/-- The kind of a single wrapper layer of rendered leaf markup. -/
inductive WrapKind where
  | strongW
  | codeBackgroundW
  | codeElemW
  | emW
  | uW
  | spanW
deriving DecidableEq, Repr

/-- Observer: the sequence of wrapper layers of rendered leaf markup,
from outermost to innermost. -/
def wrapperSeq : LeafRendered → List WrapKind
  | .text _ => []
  | .strong c => .strongW :: wrapperSeq c
  | .codeBackground c => .codeBackgroundW :: wrapperSeq c
  | .codeElem c => .codeElemW :: wrapperSeq c
  | .em c => .emW :: wrapperSeq c
  | .u c => .uW :: wrapperSeq c
  | .span c => .spanW :: wrapperSeq c

/-- Observer: the innermost text of rendered leaf markup. -/
def innerText : LeafRendered → String
  | .text s => s
  | .strong c => innerText c
  | .codeBackground c => innerText c
  | .codeElem c => innerText c
  | .em c => innerText c
  | .u c => innerText c
  | .span c => innerText c

/-- A concrete editor with an empty mark record on the selection. -/
def markEditor : Editor := { selection := none, marks := some (fun _ => false) }

/-- A concrete paragraph block. -/
def sampleBlock : ElementNode := ⟨"paragraph", none, [⟨"hello", false, false, false, false⟩]⟩

/-- A concrete selection covering one paragraph block, with no
enclosing list containers. -/
def sampleSelection : Selection := ⟨[sampleBlock], []⟩

/-- A concrete editor whose selection covers one paragraph block. -/
def sampleEditor : Editor := { selection := some sampleSelection, marks := none }

/-- A concrete selection for a single list item inside a bulleted-list
container. -/
def listWrappedSelection : Selection := ⟨[⟨"list-item", none, []⟩], ["bulleted-list"]⟩

/-- A concrete editor whose selection sits inside a bulleted-list
container. -/
def listWrappedEditor : Editor := { selection := some listWrappedSelection, marks := none }

/-! ## Theorems -/

/-- C1: for every mark format and every fixed selection, applying
`toggleMark` twice with the same editor and format returns the
selection's mark state (the presence and value of that mark) to its
original value. -/
theorem toggleMark_twice_restores (e : Editor) (format : String) :
    isMarkActive (toggleMark (toggleMark e format) format) format =
      isMarkActive e format := by
  cases h : e.marks with
  | none => simp [toggleMark, isMarkActive, addMark, removeMark, h]
  | some m =>
      cases hm : m format <;>
        simp [toggleMark, isMarkActive, addMark, removeMark, h, hm]

/-- C8: a keystroke matching the registered underline shortcut
(`mod+u`) toggles exactly the underline mark: the underline flag of the
current selection flips, while the bold, italic and code flags are
unchanged. -/
theorem hotkey_mod_u_toggles_only_underline (e : Editor) (m : String → Bool)
    (h : e.marks = some m) :
    isMarkActive (onKeyDown e "mod+u") "underline" = !isMarkActive e "underline" ∧
    isMarkActive (onKeyDown e "mod+u") "bold" = isMarkActive e "bold" ∧
    isMarkActive (onKeyDown e "mod+u") "italic" = isMarkActive e "italic" ∧
    isMarkActive (onKeyDown e "mod+u") "code" = isMarkActive e "code" := by
  cases hum : m "underline" <;>
    simp [onKeyDown, HOTKEYS, toggleMark, isMarkActive, addMark, removeMark, h, hum]

/-- Witness for C8 at a concrete editor. -/
theorem hotkey_mod_u_toggles_only_underline_witness :
    isMarkActive (onKeyDown markEditor "mod+u") "underline" =
        !isMarkActive markEditor "underline" ∧
    isMarkActive (onKeyDown markEditor "mod+u") "bold" = isMarkActive markEditor "bold" ∧
    isMarkActive (onKeyDown markEditor "mod+u") "italic" = isMarkActive markEditor "italic" ∧
    isMarkActive (onKeyDown markEditor "mod+u") "code" = isMarkActive markEditor "code" :=
  hotkey_mod_u_toggles_only_underline markEditor (fun _ => false) rfl

/-- C7: `isBlockActive` is `false` whenever the editor has no
selection, and otherwise is `true` iff at least one element node in the
unhung selection range has its attribute equal to `format`; being a
total function, it never fails. -/
theorem isBlockActive_characterization (e : Editor) (format attr : String) :
    isBlockActive e format attr = true ↔
      ∃ sel, e.selection = some sel ∧
        ∃ n ∈ nodesInRange sel, nodeAttr n attr = some format := by
  cases h : e.selection with
  | none => simp [isBlockActive, h]
  | some sel => simp [isBlockActive, h, List.any_eq_true]

/-- C5 (counterexample): the block renderer does not leave the input
block unchanged: on a block with no `align` attribute it sets the
block's `align` field to `"left"`. -/
theorem Element_mutates_unaligned_input :
    (Element ⟨"paragraph", none, []⟩).2 ≠ ⟨"paragraph", none, []⟩ := by decide

/-- C5 (amended): the rendered container tag and style are determined
by the block's type and align (children are irrelevant), and the block
is returned unchanged when its `align` attribute is set; when `align`
is unset, the renderer returns the block with `align` set to
`"left"`. -/
theorem Element_render_pure_on_type_align (b b' : ElementNode)
    (htype : b.type_ = b'.type_) (halign : b.align = b'.align) :
    (Element b).1 = (Element b').1 ∧
    (Element b).2 = (if b.align = none then { b with align := some "left" } else b) := by
  obtain ⟨t, al, ch⟩ := b
  obtain ⟨t', al', ch'⟩ := b'
  simp only at htype halign
  subst htype
  subst halign
  refine ⟨?_, rfl⟩
  cases al <;> rfl

/-- Witness for C5's amended theorem at concrete blocks differing only
in their children. -/
theorem Element_render_pure_on_type_align_witness :
    (ElementNode.mk "block-quote" (some "center") []).type_ =
        (ElementNode.mk "block-quote" (some "center")
          [⟨"x", true, false, false, false⟩]).type_ ∧
    (ElementNode.mk "block-quote" (some "center") []).align =
        (ElementNode.mk "block-quote" (some "center")
          [⟨"x", true, false, false, false⟩]).align ∧
    ((Element ⟨"block-quote", some "center", []⟩).1 =
        (Element ⟨"block-quote", some "center", [⟨"x", true, false, false, false⟩]⟩).1 ∧
      (Element ⟨"block-quote", some "center", []⟩).2 =
        (if (ElementNode.mk "block-quote" (some "center") []).align = none then
          { ElementNode.mk "block-quote" (some "center") [] with align := some "left" }
        else ⟨"block-quote", some "center", []⟩)) :=
  ⟨rfl, rfl, Element_render_pure_on_type_align _ _ rfl rfl⟩

/-- C9: the presentation mapping is total: a block with an unrecognized
type renders as a plain paragraph, and a block with no `align`
attribute renders with alignment `"left"`. -/
theorem Element_default_fallbacks (b c : ElementNode)
    (htype : b.type_ ∉ ["block-quote", "bulleted-list", "heading-one",
      "heading-two", "list-item", "numbered-list"])
    (halign : c.align = none) :
    (Element b).1.tag = Tag.p ∧ (Element c).1.textAlign = "left" := by
  constructor
  · simp only [List.mem_cons, List.not_mem_nil, or_false, not_or] at htype
    obtain ⟨h1, h2, h3, h4, h5, h6⟩ := htype
    simp [Element, apply_ite ElementNode.type_, apply_ite RenderedBlock.tag,
      h1, h2, h3, h4, h5, h6]
  · simp [Element, halign, apply_ite RenderedBlock.textAlign]

/-- Witness for C9 at a block with a bogus type and a block with no
alignment. -/
theorem Element_default_fallbacks_witness :
    (ElementNode.mk "bogus-type" (some "right") []).type_ ∉
        ["block-quote", "bulleted-list", "heading-one",
          "heading-two", "list-item", "numbered-list"] ∧
    (ElementNode.mk "paragraph" none []).align = none ∧
    ((Element ⟨"bogus-type", some "right", []⟩).1.tag = Tag.p ∧
      (Element ⟨"paragraph", none, []⟩).1.textAlign = "left") :=
  ⟨by decide, rfl, Element_default_fallbacks _ _ (by decide) rfl⟩

/-- C6: the leaf renderer applies the emphasis wrappers in the fixed
order bold, code (inside its background wrapper), italic, underline
from innermost to outermost, keeps the text innermost, and renders a
bold-and-code run as a code-background wrapper containing a code
element containing a bold wrapper containing the text. -/
theorem Leaf_wrapper_order (l : LeafRun) :
    wrapperSeq (Leaf l) =
      [WrapKind.spanW] ++
        (if l.underline then [WrapKind.uW] else []) ++
        (if l.italic then [WrapKind.emW] else []) ++
        (if l.code then [WrapKind.codeBackgroundW, WrapKind.codeElemW] else []) ++
        (if l.bold then [WrapKind.strongW] else []) ∧
    innerText (Leaf l) = l.text ∧
    Leaf ⟨l.text, true, false, false, true⟩ =
      LeafRendered.span
        (.codeBackground (.codeElem (.strong (.text l.text)))) := by
  obtain ⟨s, b, i, u, c⟩ := l
  cases b <;> cases i <;> cases u <;> cases c <;>
    simp [Leaf, wrapperSeq, innerText]

/-- C2: toggling a list format that is not active sets every selected
block's type to `"list-item"` and wraps the selection in exactly one
new container block whose type is the list format (on top of the
wrappers left by the list-unwrap step). -/
theorem toggleBlock_list_on (e : Editor) (sel : Selection) (format : String)
    (hsel : e.selection = some sel)
    (hfmt : format = "bulleted-list" ∨ format = "numbered-list")
    (hactive : isBlockActive e format "type" = false) :
    ∃ sel', (toggleBlock e format).selection = some sel' ∧
      (∀ b ∈ sel'.selected, b.type_ = "list-item") ∧
      sel'.wrappers = format :: sel.wrappers.filter (fun t => !LIST_TYPES.contains t) := by
  obtain ⟨bs, ws⟩ := sel
  have hta : format ∉ TEXT_ALIGN_TYPES := by
    rcases hfmt with hf | hf <;> subst hf <;> decide
  have hla : format ∈ LIST_TYPES := by
    rcases hfmt with hf | hf <;> subst hf <;> decide
  refine ⟨⟨bs.map (applyProps (.setType "list-item")),
      format :: ws.filter (fun t => !LIST_TYPES.contains t)⟩, ?_, ?_, rfl⟩
  · simp [toggleBlock, unwrapListNodes, setNodes, wrapNodes, hsel, hta, hla, hactive]
  · rintro b hb
    simp only [List.mem_map] at hb
    obtain ⟨x, _, rfl⟩ := hb
    rfl

/-- Witness for C2 at a concrete editor. -/
theorem toggleBlock_list_on_witness :
    sampleEditor.selection = some sampleSelection ∧
    isBlockActive sampleEditor "bulleted-list" "type" = false ∧
    ∃ sel', (toggleBlock sampleEditor "bulleted-list").selection = some sel' ∧
      (∀ b ∈ sel'.selected, b.type_ = "list-item") ∧
      sel'.wrappers =
        "bulleted-list" :: sampleSelection.wrappers.filter (fun t => !LIST_TYPES.contains t) :=
  ⟨rfl, by decide,
    toggleBlock_list_on sampleEditor sampleSelection "bulleted-list" rfl (Or.inl rfl)
      (by decide)⟩

/-- Helper: the effect of `toggleBlock` for an alignment keyword whose
registry value is the keyword itself (true of all four alignment
keywords): the wrappers are untouched, every selected block's `align`
becomes the turn-off value `"left"` or the registry value, and the
alignment is active afterwards exactly when it was previously inactive
or the keyword is `"left"`. -/
theorem toggleBlock_align_aux (e : Editor) (bs : List ElementNode) (ws : List String)
    (a : String) (hsel : e.selection = some ⟨bs, ws⟩) (hne : bs ≠ [])
    (hta : a ∈ TEXT_ALIGN_TYPES) (hla : a ∉ LIST_TYPES)
    (hfd : formatDirectory a = some a) :
    (toggleBlock e a).selection = some
      ⟨bs.map (applyProps (.setAlign
          (if isBlockActive e a "align" then some "left" else formatDirectory a))), ws⟩ ∧
    isBlockActive (toggleBlock e a) a "align" =
      (!isBlockActive e a "align" || a == "left") := by
  have h1 : (toggleBlock e a).selection = some
      ⟨bs.map (applyProps (.setAlign
          (if isBlockActive e a "align" then some "left" else formatDirectory a))), ws⟩ := by
    simp [toggleBlock, unwrapListNodes, setNodes, wrapNodes, hsel, hta, hla,
      List.filter_true]
  refine ⟨h1, ?_⟩
  cases hact : isBlockActive e a "align" with
  | false =>
      rw [hact] at h1
      simp only [Bool.false_eq_true, if_false, hfd] at h1
      obtain ⟨x, hx⟩ := List.exists_mem_of_ne_nil bs hne
      simp [isBlockActive, h1, nodesInRange, nodeAttr, List.any_eq_true, applyProps]
      exact ⟨x, hx⟩
  | true =>
      rw [hact] at h1
      simp only [if_true] at h1
      by_cases hal : a = "left"
      · subst hal
        obtain ⟨x, hx⟩ := List.exists_mem_of_ne_nil bs hne
        simp [isBlockActive, h1, nodesInRange, nodeAttr, List.any_eq_true, applyProps]
        exact ⟨x, hx⟩
      · have hal' : "left" ≠ a := Ne.symm hal
        have hbeq : (a == "left") = false := beq_eq_false_iff_ne.mpr hal
        simp [isBlockActive, h1, nodesInRange, nodeAttr, applyProps, hal, hal', hbeq]

/-- C3: toggling an alignment keyword leaves the wrappers untouched and
sets every selected block's `align` to the canonical registry value
when the alignment was not previously active (after which
`isBlockActive` for that alignment is true), and to `"left"` when it
was previously active. -/
theorem toggleBlock_align_canonical (e : Editor) (sel : Selection) (a : String)
    (hsel : e.selection = some sel) (hne : sel.selected ≠ [])
    (ha : a ∈ TEXT_ALIGN_TYPES) :
    ∃ sel', (toggleBlock e a).selection = some sel' ∧
      sel'.wrappers = sel.wrappers ∧
      sel'.selected = sel.selected.map (applyProps (.setAlign
        (if isBlockActive e a "align" then some "left" else formatDirectory a))) ∧
      isBlockActive (toggleBlock e a) a "align" =
        (!isBlockActive e a "align" || a == "left") := by
  obtain ⟨bs, ws⟩ := sel
  have ha' : a = "left" ∨ a = "center" ∨ a = "right" ∨ a = "justify" := by
    simpa [TEXT_ALIGN_TYPES] using ha
  have hla : a ∉ LIST_TYPES := by
    rcases ha' with rfl | rfl | rfl | rfl <;> decide
  have hfd : formatDirectory a = some a := by
    rcases ha' with rfl | rfl | rfl | rfl <;> decide
  obtain ⟨h1, h2⟩ := toggleBlock_align_aux e bs ws a hsel hne ha hla hfd
  exact ⟨_, h1, rfl, rfl, h2⟩

/-- Witness for C3 at a concrete editor and the alignment keyword
`"center"`. -/
theorem toggleBlock_align_canonical_witness :
    sampleEditor.selection = some sampleSelection ∧
    sampleSelection.selected ≠ [] ∧
    "center" ∈ TEXT_ALIGN_TYPES ∧
    (∃ sel', (toggleBlock sampleEditor "center").selection = some sel' ∧
      sel'.wrappers = sampleSelection.wrappers ∧
      sel'.selected = sampleSelection.selected.map (applyProps (.setAlign
        (if isBlockActive sampleEditor "center" "align" then some "left"
         else formatDirectory "center"))) ∧
      isBlockActive (toggleBlock sampleEditor "center") "center" "align" =
        (!isBlockActive sampleEditor "center" "align" || "center" == "left")) :=
  ⟨rfl, by decide, by decide,
    toggleBlock_align_canonical sampleEditor sampleSelection "center" rfl (by decide)
      (by decide)⟩

/-- C4: for a format that is not an alignment keyword, the unwrap step
run first by `toggleBlock` removes every enclosing list container (and
keeps the non-list wrappers and the selected blocks), so after
`toggleBlock` with a format that is neither an alignment keyword nor a
list format no list container remains around the selection; for an
alignment keyword the unwrap step removes nothing. -/
theorem toggleBlock_unwrap_normalization (e : Editor) (sel : Selection) (format : String)
    (hsel : e.selection = some sel) :
    (format ∉ TEXT_ALIGN_TYPES →
      ∃ sel', (unwrapListNodes e format).selection = some sel' ∧
        sel'.selected = sel.selected ∧
        (∀ t ∈ sel'.wrappers, t ∉ LIST_TYPES) ∧
        (∀ t ∈ sel.wrappers, t ∉ LIST_TYPES → t ∈ sel'.wrappers)) ∧
    (format ∈ TEXT_ALIGN_TYPES → unwrapListNodes e format = e) ∧
    (format ∉ TEXT_ALIGN_TYPES → format ∉ LIST_TYPES →
      ∃ sel'', (toggleBlock e format).selection = some sel'' ∧
        ∀ t ∈ sel''.wrappers, t ∉ LIST_TYPES) := by
  obtain ⟨bs, ws⟩ := sel
  refine ⟨?_, ?_, ?_⟩
  · intro hta
    refine ⟨⟨bs, ws.filter (fun t => !LIST_TYPES.contains t)⟩, ?_, rfl, ?_, ?_⟩
    · simp [unwrapListNodes, hsel, hta]
    · intro t ht
      simp only [List.mem_filter] at ht
      simpa using ht.2
    · intro t ht hnl
      simp only [List.mem_filter]
      exact ⟨ht, by simpa using hnl⟩
  · intro hta
    obtain ⟨esel, em⟩ := e
    replace hsel : esel = some ⟨bs, ws⟩ := hsel
    subst hsel
    simp [unwrapListNodes, hta, List.filter_true]
  · intro hta hla
    refine ⟨⟨bs.map (applyProps (.setType
        (if isBlockActive e format "type" then "paragraph" else format))),
      ws.filter (fun t => !LIST_TYPES.contains t)⟩, ?_, ?_⟩
    · simp [toggleBlock, unwrapListNodes, setNodes, wrapNodes, hsel, hta, hla]
    · intro t ht
      simp only [List.mem_filter] at ht
      simpa using ht.2

/-- Witness for C4 at a concrete editor inside a list container. -/
theorem toggleBlock_unwrap_normalization_witness :
    listWrappedEditor.selection = some listWrappedSelection ∧
    (("heading-one" : String) ∉ TEXT_ALIGN_TYPES →
      ∃ sel', (unwrapListNodes listWrappedEditor "heading-one").selection = some sel' ∧
        sel'.selected = listWrappedSelection.selected ∧
        (∀ t ∈ sel'.wrappers, t ∉ LIST_TYPES) ∧
        (∀ t ∈ listWrappedSelection.wrappers, t ∉ LIST_TYPES → t ∈ sel'.wrappers)) ∧
    (("heading-one" : String) ∈ TEXT_ALIGN_TYPES →
      unwrapListNodes listWrappedEditor "heading-one" = listWrappedEditor) ∧
    (("heading-one" : String) ∉ TEXT_ALIGN_TYPES → ("heading-one" : String) ∉ LIST_TYPES →
      ∃ sel'', (toggleBlock listWrappedEditor "heading-one").selection = some sel'' ∧
        ∀ t ∈ sel''.wrappers, t ∉ LIST_TYPES) :=
  ⟨rfl, toggleBlock_unwrap_normalization listWrappedEditor listWrappedSelection
    "heading-one" rfl⟩

/-- C10: `toggleBlock` with format `"left"` always sets every selected
block's `align` to `"left"` — the turn-off value and the registry value
for `"left"` coincide — so a second application changes nothing
(idempotence), and repeated applications can never switch left
alignment off. -/
theorem toggleBlock_left_idempotent (e : Editor) (sel : Selection)
    (hsel : e.selection = some sel) :
    formatDirectory "left" = some "left" ∧
    ∃ sel', (toggleBlock e "left").selection = some sel' ∧
      sel'.wrappers = sel.wrappers ∧
      (∀ b ∈ sel'.selected, b.align = some "left") ∧
      toggleBlock (toggleBlock e "left") "left" = toggleBlock e "left" := by
  obtain ⟨bs, ws⟩ := sel
  have hta : ("left" : String) ∈ TEXT_ALIGN_TYPES := by decide
  have hla : ("left" : String) ∉ LIST_TYPES := by decide
  have h1 : toggleBlock e "left" =
      { e with selection := some ⟨bs.map (applyProps (.setAlign (some "left"))), ws⟩ } := by
    simp [toggleBlock, unwrapListNodes, setNodes, wrapNodes, hsel, hta, hla,
      formatDirectory, List.filter_true, ite_self]
  have h2 : toggleBlock (toggleBlock e "left") "left" = toggleBlock e "left" := by
    rw [h1]
    simp [toggleBlock, unwrapListNodes, setNodes, wrapNodes, hta, hla,
      formatDirectory, List.filter_true, ite_self, List.map_map]
    intro b _
    rfl
  refine ⟨by decide, ⟨bs.map (applyProps (.setAlign (some "left"))), ws⟩,
    by rw [h1], rfl, ?_, h2⟩
  rintro b hb
  simp only [List.mem_map] at hb
  obtain ⟨x, _, rfl⟩ := hb
  rfl

/-- Witness for C10 at a concrete editor. -/
theorem toggleBlock_left_idempotent_witness :
    sampleEditor.selection = some sampleSelection ∧
    (formatDirectory "left" = some "left" ∧
      ∃ sel', (toggleBlock sampleEditor "left").selection = some sel' ∧
        sel'.wrappers = sampleSelection.wrappers ∧
        (∀ b ∈ sel'.selected, b.align = some "left") ∧
        toggleBlock (toggleBlock sampleEditor "left") "left" =
          toggleBlock sampleEditor "left") :=
  ⟨rfl, toggleBlock_left_idempotent sampleEditor sampleSelection rfl⟩

end RichText
